import Mathlib

/-!
Verification of the AwWasm runtime core (crate `awwasm-runtime`).

This file gives a shallow embedding, in Lean 4, of the runtime state and
instantiation engine of the AwWasm WebAssembly runtime: values, the memory,
table and global instances, the Store with its allocation methods, and the
`store_init` instantiation pipeline.  Machine integers (`u32`, `usize`) are
modelled as `Nat` with explicit `% 2^32` at the places where the Rust source
performs an `as u32` cast or `u32` checked arithmetic; `usize` arithmetic is
modelled as exact `Nat` arithmetic (the source targets 64-bit platforms, where
sums of `u32`-sized quantities cannot overflow a `usize`).  Rust `i32`/`i64`
values and IEEE-754 floats are modelled by their bit patterns (a `Nat` below
`2^32` resp. `2^64`), which is faithful because the runtime core only moves
their bytes and compares them bit-for-bit.  Fallible operations return
`Except`; operations that mutate `&mut self` and return a `Result`/`Option`
are modelled as functions returning the new state paired with the
result/error, the error branches returning the input state unchanged exactly
where the Rust early-returns do.
-/

namespace AwWasm

/-- Modulus of a 32-bit machine integer. -/
def U32_MOD : Nat := 4294967296

/-- The `as u32` cast of the Rust source: truncation modulo `2^32`. -/
def u32cast (n : Nat) : Nat := n % U32_MOD

/-- WebAssembly page size in bytes (64 KiB); `PAGE_SIZE` in `memory.rs`. -/
def PAGE_SIZE : Nat := 65536

/-- Semantics of `Vec::resize(n, v)`: truncate to `n` elements when `n` is
not larger than the length, otherwise extend with copies of `v`. -/
def listResize (l : List α) (n : Nat) (v : α) : List α :=
  if n ≤ l.length then l.take n else l ++ List.replicate (n - l.length) v

/-- Semantics of the Rust slice assignment `l[at_ .. at_ + seg.len()] = seg`:
replace the `seg.length` elements starting at `at_` by `seg`. -/
def listSplice (l : List α) (at_ : Nat) (seg : List α) : List α :=
  l.take at_ ++ seg ++ l.drop (at_ + seg.length)

/-- Semantics of `slice::copy_within(src..src+count, dst)`: an overlap-safe
(memmove) copy, documented by Rust to behave as if the source range were
first read in full and then written at `dst`. -/
def listCopyWithin (l : List α) (src count dst : Nat) : List α :=
  listSplice l dst ((l.drop src).take count)

/-- Semantics of `Vec::swap_remove(i)`: replace element `i` by the last
element and pop the last element. -/
def listSwapRemove (l : List α) (i : Nat) : List α :=
  match l.getLast? with
  | none => l
  | some last => (l.set i last).dropLast

/-- Little-endian byte decomposition of a bit pattern, as produced by the
Rust `to_le_bytes` methods (`n` is the byte width). -/
def toLeBytes : Nat → Nat → List Nat
  | _, 0 => []
  | v, n + 1 => v % 256 :: toLeBytes (v / 256) n

/-- Little-endian byte recomposition, as performed by the Rust
`from_le_bytes` methods. -/
def fromLeBytes : List Nat → Nat
  | [] => 0
  | b :: bs => b + 256 * fromLeBytes bs

/-- Value types (`AwwasmValueType` in `values.rs`). -/
inductive AwwasmValueType where
  | I32
  | I64
  | F32
  | F64
deriving DecidableEq, Repr

/-- Runtime values (`AwwasmValue` in `values.rs`).  Each payload is the bit
pattern of the Rust payload (`i32`/`f32` as a `Nat` below `2^32`, `i64`/`f64`
as a `Nat` below `2^64`). -/
inductive AwwasmValue where
  | I32 (bits : Nat)
  | I64 (bits : Nat)
  | F32 (bits : Nat)
  | F64 (bits : Nat)
deriving DecidableEq, Repr

/-- `AwwasmValue::default_for_type` in `values.rs`. -/
def AwwasmValue.default_for_type : AwwasmValueType → AwwasmValue
  | .I32 => .I32 0
  | .I64 => .I64 0
  | .F32 => .F32 0
  | .F64 => .F64 0

/-- `AwwasmValue::value_type` in `values.rs`: the tag of the value. -/
def AwwasmValue.value_type : AwwasmValue → AwwasmValueType
  | .I32 _ => .I32
  | .I64 _ => .I64
  | .F32 _ => .F32
  | .F64 _ => .F64

/-- Newtype address of a function instance (`AwwasmFuncAddr`). -/
structure AwwasmFuncAddr where
  val : Nat
deriving DecidableEq, Repr

/-- Newtype address of a table instance (`AwwasmTableAddr`). -/
structure AwwasmTableAddr where
  val : Nat
deriving DecidableEq, Repr

/-- Newtype address of a memory instance (`AwwasmMemAddr`). -/
structure AwwasmMemAddr where
  val : Nat
deriving DecidableEq, Repr

/-- Newtype address of a global instance (`AwwasmGlobalAddr`). -/
structure AwwasmGlobalAddr where
  val : Nat
deriving DecidableEq, Repr

/-- Newtype address of an element instance (`AwwasmElemAddr`). -/
structure AwwasmElemAddr where
  val : Nat
deriving DecidableEq, Repr

/-- Newtype address of a data instance (`AwwasmDataAddr`). -/
structure AwwasmDataAddr where
  val : Nat
deriving DecidableEq, Repr

/-- Newtype address of a module instance (`AwwasmModuleAddr`). -/
structure AwwasmModuleAddr where
  val : Nat
deriving DecidableEq, Repr

/-- External addresses (`AwwasmExternAddr` in `values.rs`). -/
inductive AwwasmExternAddr where
  | Func (addr : AwwasmFuncAddr)
  | Table (addr : AwwasmTableAddr)
  | Mem (addr : AwwasmMemAddr)
  | Global (addr : AwwasmGlobalAddr)
deriving DecidableEq, Repr

/-- Runtime traps (`AwwasmTrap` in `error.rs`); only the variants the
verified operations construct are listed. -/
inductive AwwasmTrap where
  | MemoryOutOfBounds (offset size memory_size : Nat)
  | TableOutOfBounds (index table_size : Nat)
deriving DecidableEq, Repr

/-- Global type (`AwwasmGlobalType` in `global.rs`). -/
structure AwwasmGlobalType where
  mutable : Bool
  value_type : AwwasmValueType
deriving DecidableEq, Repr

/-- `AwwasmGlobalType::immutable`. -/
def AwwasmGlobalType.immutable (value_type : AwwasmValueType) : AwwasmGlobalType :=
  { mutable := false, value_type := value_type }

/-- `AwwasmGlobalType::mutable`. -/
def AwwasmGlobalType.mut (value_type : AwwasmValueType) : AwwasmGlobalType :=
  { mutable := true, value_type := value_type }

/-- Global instance (`AwwasmGlobalInst` in `global.rs`). -/
structure AwwasmGlobalInst where
  type_ : AwwasmGlobalType
  value : AwwasmValue
deriving DecidableEq, Repr

/-- `AwwasmGlobalInst::new`. -/
def AwwasmGlobalInst.new (type_ : AwwasmGlobalType) (value : AwwasmValue) :
    AwwasmGlobalInst :=
  { type_ := type_, value := value }

/-- `AwwasmGlobalInst::get`. -/
def AwwasmGlobalInst.get (g : AwwasmGlobalInst) : AwwasmValue := g.value

/-- `AwwasmGlobalInst::set`: rejects the write with `Err(())` when the global
is immutable, otherwise overwrites the stored value.  The `&mut self`
receiver and `Result<(), ()>` return are modelled as a pair of the resulting
instance and the result. -/
def AwwasmGlobalInst.set (g : AwwasmGlobalInst) (value : AwwasmValue) :
    AwwasmGlobalInst × Except Unit Unit :=
  if !g.type_.mutable then (g, .error ())
  else ({ g with value := value }, .ok ())

/-- `AwwasmGlobalInst::is_mutable`. -/
def AwwasmGlobalInst.is_mutable (g : AwwasmGlobalInst) : Bool := g.type_.mutable

/-- Instantiation errors (`AwwasmInstantiationError` in `error.rs`).  The
source renders import/export names as UTF-8 `String`s in `MissingImport` and
`ImportTypeMismatch`; we carry the underlying name bytes instead, which is a
bijective renaming for valid UTF-8 names and keeps the embedding byte-exact. -/
inductive AwwasmInstantiationError where
  | MissingImport (module name : List Nat)
  | ImportTypeMismatch (module name : List Nat) (expected got : String)
  | MemoryAllocationFailed (requested_pages : Nat)
  | DataSegmentOutOfBounds (segment_idx offset size memory_size : Nat)
  | ElementSegmentOutOfBounds (segment_idx offset size table_size : Nat)
  | UnsupportedType (description : String)
  | InvalidConstExpr (description : String)
  | FuncCodeMismatch (func_count code_count : Nat)
deriving DecidableEq, Repr

/-- Memory type (`AwwasmMemoryType` in `memory.rs`): limits in pages. -/
structure AwwasmMemoryType where
  min : Nat
  max : Option Nat
deriving DecidableEq, Repr

/-- `AwwasmMemoryType::new`. -/
def AwwasmMemoryType.new (min : Nat) (max : Option Nat) : AwwasmMemoryType :=
  { min := min, max := max }

/-- Memory instance (`AwwasmMemInst` in `memory.rs`): limits plus the raw
byte buffer (each entry a byte below 256). -/
structure AwwasmMemInst where
  type_ : AwwasmMemoryType
  data : List Nat
deriving DecidableEq, Repr

/-- `AwwasmMemInst::new`: `min` pages of zeroed memory. -/
def AwwasmMemInst.new (type_ : AwwasmMemoryType) : AwwasmMemInst :=
  { type_ := type_, data := List.replicate (type_.min * PAGE_SIZE) 0 }

/-- `AwwasmMemInst::size_pages`: `(data.len() / PAGE_SIZE) as u32`. -/
def AwwasmMemInst.size_pages (m : AwwasmMemInst) : Nat :=
  u32cast (m.data.length / PAGE_SIZE)

/-- `AwwasmMemInst::size_bytes`. -/
def AwwasmMemInst.size_bytes (m : AwwasmMemInst) : Nat := m.data.length

/-- `AwwasmMemInst::grow`: `old_pages.checked_add(delta)` in `u32` (overflow
returns `None`), then the `max` check, then the 65,536-page implementation
ceiling, then `Vec::resize` to the new byte size with zero fill, returning
the previous page count. -/
def AwwasmMemInst.grow (m : AwwasmMemInst) (delta : Nat) :
    AwwasmMemInst × Option Nat :=
  let old_pages := m.size_pages
  if U32_MOD ≤ old_pages + delta then (m, none)
  else
    let new_pages := old_pages + delta
    if (match m.type_.max with | some mx => decide (mx < new_pages) | none => false) then
      (m, none)
    else if 65536 < new_pages then (m, none)
    else ({ m with data := listResize m.data (new_pages * PAGE_SIZE) 0 }, some old_pages)

/-- `AwwasmMemInst::read`: bounds check `offset + size ≤ data.len()` (the
`usize` sum is exact on 64-bit targets), then the slice
`&data[offset..offset+size]`; out of bounds yields `MemoryOutOfBounds` with
`memory_size = data.len() as u32`. -/
def AwwasmMemInst.read (m : AwwasmMemInst) (offset size : Nat) :
    Except AwwasmTrap (List Nat) :=
  if offset + size ≤ m.data.length then
    .ok ((m.data.drop offset).take size)
  else
    .error (.MemoryOutOfBounds offset size (u32cast m.data.length))

/-- `AwwasmMemInst::write`: same bounds check as `read`, then the slice
assignment `data[offset..offset+len] = bytes`; the trap's `size` field is
`bytes.len() as u32`. -/
def AwwasmMemInst.write (m : AwwasmMemInst) (offset : Nat) (bytes : List Nat) :
    AwwasmMemInst × Option AwwasmTrap :=
  if offset + bytes.length ≤ m.data.length then
    ({ m with data := listSplice m.data offset bytes }, none)
  else
    (m, some (.MemoryOutOfBounds offset (u32cast bytes.length) (u32cast m.data.length)))

/-- `AwwasmMemInst::read_u8`. -/
def AwwasmMemInst.read_u8 (m : AwwasmMemInst) (offset : Nat) : Except AwwasmTrap Nat :=
  (m.read offset 1).map fromLeBytes

/-- `AwwasmMemInst::write_u8`. -/
def AwwasmMemInst.write_u8 (m : AwwasmMemInst) (offset value : Nat) :
    AwwasmMemInst × Option AwwasmTrap :=
  m.write offset [value]

/-- `AwwasmMemInst::read_i32`: 4 bytes, recomposed little-endian by
`i32::from_le_bytes` (result is the `i32` bit pattern). -/
def AwwasmMemInst.read_i32 (m : AwwasmMemInst) (offset : Nat) : Except AwwasmTrap Nat :=
  (m.read offset 4).map fromLeBytes

/-- `AwwasmMemInst::write_i32`: `value.to_le_bytes()` (4 bytes) written at
`offset`. -/
def AwwasmMemInst.write_i32 (m : AwwasmMemInst) (offset value : Nat) :
    AwwasmMemInst × Option AwwasmTrap :=
  m.write offset (toLeBytes value 4)

/-- `AwwasmMemInst::read_i64`. -/
def AwwasmMemInst.read_i64 (m : AwwasmMemInst) (offset : Nat) : Except AwwasmTrap Nat :=
  (m.read offset 8).map fromLeBytes

/-- `AwwasmMemInst::write_i64`. -/
def AwwasmMemInst.write_i64 (m : AwwasmMemInst) (offset value : Nat) :
    AwwasmMemInst × Option AwwasmTrap :=
  m.write offset (toLeBytes value 8)

/-- `AwwasmMemInst::read_f32`: identical byte movement to `read_i32`; the
result is the `f32` bit pattern (`f32::from_le_bytes`). -/
def AwwasmMemInst.read_f32 (m : AwwasmMemInst) (offset : Nat) : Except AwwasmTrap Nat :=
  (m.read offset 4).map fromLeBytes

/-- `AwwasmMemInst::write_f32`: writes the 4 little-endian bytes of the `f32`
bit pattern. -/
def AwwasmMemInst.write_f32 (m : AwwasmMemInst) (offset value : Nat) :
    AwwasmMemInst × Option AwwasmTrap :=
  m.write offset (toLeBytes value 4)

/-- `AwwasmMemInst::read_f64`. -/
def AwwasmMemInst.read_f64 (m : AwwasmMemInst) (offset : Nat) : Except AwwasmTrap Nat :=
  (m.read offset 8).map fromLeBytes

/-- `AwwasmMemInst::write_f64`. -/
def AwwasmMemInst.write_f64 (m : AwwasmMemInst) (offset value : Nat) :
    AwwasmMemInst × Option AwwasmTrap :=
  m.write offset (toLeBytes value 8)

/-- `AwwasmMemInst::fill`: same bounds check as `read`/`write`, then
`data[offset..offset+size].fill(value)`. -/
def AwwasmMemInst.fill (m : AwwasmMemInst) (offset value size : Nat) :
    AwwasmMemInst × Option AwwasmTrap :=
  if offset + size ≤ m.data.length then
    ({ m with data := listSplice m.data offset (List.replicate size value) }, none)
  else
    (m, some (.MemoryOutOfBounds offset size (u32cast m.data.length)))

/-- `AwwasmMemInst::copy_within`: `mem_size = data.len() as u32`; source and
destination bounds are checked with `u32` checked addition (`checked_add`
failure, i.e. a sum reaching `2^32`, counts as out of bounds); then the
overlap-safe `slice::copy_within`. -/
def AwwasmMemInst.copy_within (m : AwwasmMemInst) (dst src size : Nat) :
    AwwasmMemInst × Option AwwasmTrap :=
  let mem_size := u32cast m.data.length
  if U32_MOD ≤ src + size ∨ mem_size < src + size then
    (m, some (.MemoryOutOfBounds src size mem_size))
  else if U32_MOD ≤ dst + size ∨ mem_size < dst + size then
    (m, some (.MemoryOutOfBounds dst size mem_size))
  else
    ({ m with data := listCopyWithin m.data src size dst }, none)

/-- Element type of a table (`AwwasmElemType` in `table.rs`). -/
inductive AwwasmElemType where
  | FuncRef
  | ExternRef
deriving DecidableEq, Repr

/-- Table type (`AwwasmTableType` in `table.rs`). -/
structure AwwasmTableType where
  min : Nat
  max : Option Nat
  elem_type : AwwasmElemType
deriving DecidableEq, Repr

/-- `AwwasmTableType::funcref`. -/
def AwwasmTableType.funcref (min : Nat) (max : Option Nat) : AwwasmTableType :=
  { min := min, max := max, elem_type := .FuncRef }

/-- Table instance (`AwwasmTableInst` in `table.rs`): slots are
`Option<AwwasmFuncAddr>`, `none` being the null reference. -/
structure AwwasmTableInst where
  type_ : AwwasmTableType
  elem : List (Option AwwasmFuncAddr)
deriving DecidableEq, Repr

/-- `AwwasmTableInst::new`: `min` null slots. -/
def AwwasmTableInst.new (type_ : AwwasmTableType) : AwwasmTableInst :=
  { type_ := type_, elem := List.replicate type_.min none }

/-- `AwwasmTableInst::size`: `elem.len() as u32`. -/
def AwwasmTableInst.size (t : AwwasmTableInst) : Nat := u32cast t.elem.length

/-- `AwwasmTableInst::get`. -/
def AwwasmTableInst.get (t : AwwasmTableInst) (index : Nat) :
    Except AwwasmTrap (Option AwwasmFuncAddr) :=
  if t.elem.length ≤ index then
    .error (.TableOutOfBounds index (u32cast t.elem.length))
  else
    .ok (t.elem.getD index none)

/-- `AwwasmTableInst::set`. -/
def AwwasmTableInst.set (t : AwwasmTableInst) (index : Nat)
    (value : Option AwwasmFuncAddr) : AwwasmTableInst × Option AwwasmTrap :=
  if t.elem.length ≤ index then
    (t, some (.TableOutOfBounds index (u32cast t.elem.length)))
  else
    ({ t with elem := t.elem.set index value }, none)

/-- `AwwasmTableInst::grow`: `u32` checked addition, the `max` check (no
4 GiB ceiling for tables), then `Vec::resize` with the `init` value. -/
def AwwasmTableInst.grow (t : AwwasmTableInst) (delta : Nat)
    (init : Option AwwasmFuncAddr) : AwwasmTableInst × Option Nat :=
  let old_size := t.size
  if U32_MOD ≤ old_size + delta then (t, none)
  else
    let new_size := old_size + delta
    if (match t.type_.max with | some mx => decide (mx < new_size) | none => false) then
      (t, none)
    else ({ t with elem := listResize t.elem new_size init }, some old_size)

/-- `AwwasmTableInst::fill`: the `usize` sum `offset + count` is exact, the
bound is `end ≤ elem.len()`; note the error's `index` field is
`offset + count - 1` in the out-of-bounds case. -/
def AwwasmTableInst.fill (t : AwwasmTableInst) (offset : Nat)
    (value : Option AwwasmFuncAddr) (count : Nat) :
    AwwasmTableInst × Option AwwasmTrap :=
  if offset + count ≤ t.elem.length then
    ({ t with elem := listSplice t.elem offset (List.replicate count value) }, none)
  else
    (t, some (.TableOutOfBounds (offset + count - 1) (u32cast t.elem.length)))

/-- `AwwasmTableInst::copy_within`: bounds checks as in the memory version;
then, when the two ranges overlap (`dst ∈ [src, src+count)` or
`src ∈ [dst, dst+count)`), the source slots are first materialized with
`to_vec` and copied with `copy_from_slice`, otherwise `slice::copy_within`
is used directly. -/
def AwwasmTableInst.copy_within (t : AwwasmTableInst) (dst src count : Nat) :
    AwwasmTableInst × Option AwwasmTrap :=
  let table_size := u32cast t.elem.length
  if U32_MOD ≤ src + count ∨ table_size < src + count then
    (t, some (.TableOutOfBounds src table_size))
  else if U32_MOD ≤ dst + count ∨ table_size < dst + count then
    (t, some (.TableOutOfBounds dst table_size))
  else if (src ≤ dst ∧ dst < src + count) ∨ (dst ≤ src ∧ src < dst + count) then
    let src_data := (t.elem.drop src).take count
    ({ t with elem := listSplice t.elem dst src_data }, none)
  else
    ({ t with elem := listCopyWithin t.elem src count dst }, none)

/-- Local declaration (`AwwasmLocalDecl` in `func.rs`). -/
structure AwwasmLocalDecl where
  count : Nat
  type_ : AwwasmValueType
deriving DecidableEq, Repr

/-- Lazy function body (`LazyResolvedCodeRef` in `func.rs`): either the raw
borrowed body bytes, or parsed local declarations plus the code bytes. -/
inductive LazyResolvedCodeRef where
  | Unparsed (bytes : List Nat)
  | Resolved (locals : List AwwasmLocalDecl) (code : List Nat)
deriving DecidableEq, Repr

/-- Wasm function instance (`AwwasmWasmFuncInst` in `func.rs`). -/
structure AwwasmWasmFuncInst where
  type_idx : Nat
  module : AwwasmModuleAddr
  code : LazyResolvedCodeRef
deriving DecidableEq, Repr

/-- Host function instance (`AwwasmHostFuncInst` in `func.rs`). -/
structure AwwasmHostFuncInst where
  type_idx : Nat
  host_func_id : Nat
deriving DecidableEq, Repr

/-- Function instance (`AwwasmFuncInst` in `func.rs`). -/
inductive AwwasmFuncInst where
  | Wasm (f : AwwasmWasmFuncInst)
  | Host (f : AwwasmHostFuncInst)
deriving DecidableEq, Repr

/-- `AwwasmFuncInst::wasm`: a module-defined function with an `Unparsed`
body. -/
def AwwasmFuncInst.wasm (type_idx : Nat) (module : AwwasmModuleAddr)
    (code_bytes : List Nat) : AwwasmFuncInst :=
  .Wasm { type_idx := type_idx, module := module,
          code := .Unparsed code_bytes }

/-- `AwwasmFuncInst::host`. -/
def AwwasmFuncInst.host (type_idx host_func_id : Nat) : AwwasmFuncInst :=
  .Host { type_idx := type_idx, host_func_id := host_func_id }

/-- `AwwasmFuncInst::type_idx`. -/
def AwwasmFuncInst.tyIdx : AwwasmFuncInst → Nat
  | .Wasm f => f.type_idx
  | .Host f => f.type_idx

/-- `AwwasmFuncInst::is_wasm`. -/
def AwwasmFuncInst.is_wasm : AwwasmFuncInst → Bool
  | .Wasm _ => true
  | .Host _ => false

/-- Element instance (`AwwasmElemInst` in `func.rs`). -/
structure AwwasmElemInst where
  type_ : AwwasmElemType
  elem : List (Option AwwasmFuncAddr)
  dropped : Bool
deriving DecidableEq, Repr

/-- Data instance (`AwwasmDataInst` in `func.rs`): borrowed segment bytes
plus the dropped flag. -/
structure AwwasmDataInst where
  data : List Nat
  dropped : Bool
deriving DecidableEq, Repr

/-- `AwwasmDataInst::new`. -/
def AwwasmDataInst.new (data : List Nat) : AwwasmDataInst :=
  { data := data, dropped := false }

/-- `AwwasmDataInst::drop_data`. -/
def AwwasmDataInst.drop_data (d : AwwasmDataInst) : AwwasmDataInst :=
  { d with dropped := true }

/-- `AwwasmDataInst::bytes`. -/
def AwwasmDataInst.bytes (d : AwwasmDataInst) : Option (List Nat) :=
  if d.dropped then none else some d.data

/-- The value provided for an import (`AwwasmImportValue` in `imports.rs`). -/
inductive AwwasmImportValue where
  | Func (f : AwwasmFuncInst)
  | Memory (m : AwwasmMemInst)
  | Global (g : AwwasmGlobalInst)
deriving DecidableEq, Repr

/-- An import entry keyed by `(module, name)` (`AwwasmImportEntry` in
`imports.rs`); names are the raw bytes. -/
structure AwwasmImportEntry where
  module : List Nat
  name : List Nat
  value : AwwasmImportValue
deriving DecidableEq, Repr

/-- The embedder's import set (`AwwasmImports` in `imports.rs`). -/
structure AwwasmImports where
  entries : List AwwasmImportEntry
deriving DecidableEq, Repr

/-- `AwwasmImports::new`. -/
def AwwasmImports.new : AwwasmImports := { entries := [] }

/-- `AwwasmImports::take`: find the position of the first entry with
byte-equal `(module, name)`, remove it with `swap_remove` and return it. -/
def AwwasmImports.take (imp : AwwasmImports) (module name : List Nat) :
    Option (AwwasmImportEntry × AwwasmImports) :=
  match imp.entries.findIdx? (fun e => e.module == module && e.name == name) with
  | none => none
  | some pos =>
    match imp.entries[pos]? with
    | none => none
    | some e => some (e, { entries := listSwapRemove imp.entries pos })

/-- Export instance (`AwwasmExportInst` in `instance.rs`): name bytes plus
the external address. -/
structure AwwasmExportInst where
  name : List Nat
  addr : AwwasmExternAddr
deriving DecidableEq, Repr

/-- `AwwasmExportInst::new`. -/
def AwwasmExportInst.new (name : List Nat) (addr : AwwasmExternAddr) :
    AwwasmExportInst :=
  { name := name, addr := addr }

/-- Module instance (`AwwasmModuleInst` in `instance.rs`): the per-module
parallel address arrays, the export directory and optional start function. -/
structure AwwasmModuleInst where
  funcaddrs : List AwwasmFuncAddr
  tableaddrs : List AwwasmTableAddr
  memaddrs : List AwwasmMemAddr
  globaladdrs : List AwwasmGlobalAddr
  elemaddrs : List AwwasmElemAddr
  dataaddrs : List AwwasmDataAddr
  exports : List AwwasmExportInst
  start : Option AwwasmFuncAddr
deriving DecidableEq, Repr

/-- `AwwasmModuleInst::new`. -/
def AwwasmModuleInst.new : AwwasmModuleInst :=
  { funcaddrs := [], tableaddrs := [], memaddrs := [], globaladdrs := [],
    elemaddrs := [], dataaddrs := [], exports := [], start := none }

/-- `AwwasmModuleInst::export`: first entry whose name bytes equal `name`. -/
def AwwasmModuleInst.export (mi : AwwasmModuleInst) (name : List Nat) :
    Option AwwasmExportInst :=
  mi.exports.find? (fun e => e.name == name)

/-- Modelled from the spec: the parser crate (`awwasm-parser`) is outside the
runtime sources; an import/export name is a record carrying the raw name
bytes, accessed as `.bytes` by `store_init`. -/
structure AwwasmName where
  bytes : List Nat
deriving DecidableEq, Repr

/-- Modelled from the spec: the parser's import kinds
(`AwwasmImportKind`), kind ∈ {Function, Table, Memory, Global}. -/
inductive AwwasmImportKind where
  | Function
  | Table
  | Memory
  | Global
deriving DecidableEq, Repr

/-- Modelled from the spec: the parser's export kinds (`AwwasmExportKind`). -/
inductive AwwasmExportKind where
  | Function
  | Table
  | Memory
  | Global
deriving DecidableEq, Repr

/-- Modelled from the spec: an entry of the parsed import section,
`{module: bytes, name: bytes, kind}`. -/
structure AwwasmImportItem where
  module : AwwasmName
  name : AwwasmName
  kind : AwwasmImportKind
deriving DecidableEq, Repr

/-- Modelled from the spec: an entry of the parsed function section; it
carries the declared type index (which `store_init` currently ignores,
hard-coding 0). -/
structure AwwasmFuncItem where
  type_idx : Nat
deriving DecidableEq, Repr

/-- Modelled from the spec: an entry of the parsed code section,
`{func_body: &[u8]}`. -/
structure AwwasmCodeItem where
  func_body : List Nat
deriving DecidableEq, Repr

/-- Modelled from the spec: the parser's memory limits record
(`AwwasmMemoryParams`), `{flags, min, max?}`. -/
structure AwwasmMemoryParams where
  flags : Nat
  min : Nat
  max : Option Nat
deriving DecidableEq, Repr

/-- Modelled from the spec: an entry of the parsed memory section. -/
structure AwwasmMemoryItem where
  limits : AwwasmMemoryParams
deriving DecidableEq, Repr

/-- Modelled from the spec: an entry of the parsed globals section — a
global type plus the bytes of its constant initializer expression (Step 4 of
the instantiation pipeline). -/
structure AwwasmGlobalItem where
  type_ : AwwasmGlobalType
  init : List Nat
deriving DecidableEq, Repr

/-- Modelled from the spec: a constant initializer expression as carried in
a data-segment header, with its raw code bytes in `.code`. -/
structure AwwasmInitExpr where
  code : List Nat
deriving DecidableEq, Repr

/-- Modelled from the spec: a data-segment header,
`{flags, memidx?, offset_expr?}`. -/
structure AwwasmDataHeader where
  flags : Nat
  memidx : Option Nat
  offset : Option AwwasmInitExpr
deriving DecidableEq, Repr

/-- Modelled from the spec: an entry of the parsed data section,
`{header, data_bytes: &[u8]}`. -/
structure AwwasmDataItem where
  header : AwwasmDataHeader
  data_bytes : List Nat
deriving DecidableEq, Repr

/-- Modelled from the spec: an entry of the parsed export section,
`{name: bytes, kind, index: u32}`. -/
structure AwwasmExportItem where
  name : AwwasmName
  kind : AwwasmExportKind
  index : Nat
deriving DecidableEq, Repr

/-- Modelled from the spec: the parsed module (`AwwasmModule`), with the
optional sections `store_init` consumes plus the globals section (which the
spec's Step 4 requires but `store_init` never reads). -/
structure AwwasmModule where
  imports : Option (List AwwasmImportItem)
  funcs : Option (List AwwasmFuncItem)
  code : Option (List AwwasmCodeItem)
  memories : Option (List AwwasmMemoryItem)
  globals : Option (List AwwasmGlobalItem)
  data : Option (List AwwasmDataItem)
  exports : Option (List AwwasmExportItem)
deriving DecidableEq, Repr

/-- Modelled from the spec: signed LEB128 decoding of the payload of an
`i32.const`; per byte, the low 7 bits are accumulated at the current shift,
a clear continuation bit ends the encoding, and bit 6 of the final byte
sign-extends.  Returns the decoded integer and the remaining bytes. -/
def slebDecode : List Nat → Nat → Int → Option (Int × List Nat)
  | [], _, _ => none
  | b :: rest, shift, acc =>
    let acc' : Int := acc + (Int.ofNat (b % 128)) * 2 ^ shift
    if b < 128 then
      some ((if 64 ≤ b % 128 then acc' - 2 ^ (shift + 7) else acc'), rest)
    else
      slebDecode rest (shift + 7) acc'

/-- Modelled from the spec: the parser's `eval_const_init_expr`, which
evaluates a constant initializer supporting only `i32.const <sleb128>`
(opcode `0x41`); any other opcode is an error.  The runtime-side tests in
`type_convert.rs` accept expressions with and without the trailing `end`
byte, so the terminator is not checked. -/
def eval_const_init_expr (code : List Nat) : Except String Int :=
  match code with
  | 65 :: rest =>
    match slebDecode rest 0 0 with
    | some (v, _) => .ok v
    | none => .error "truncated i32.const payload"
  | _ => .error "unsupported const expression opcode"

/-- `type_convert::eval_const_expr`: delegates to the parser's evaluator,
wraps its error into `InvalidConstExpr`, and reinterprets the `i32` result
as a `u32` (two's complement, `as u32`). -/
def eval_const_expr (code : List Nat) : Except AwwasmInstantiationError Nat :=
  match eval_const_init_expr code with
  | .error e => .error (.InvalidConstExpr e)
  | .ok v => .ok ((v % (U32_MOD : Int)).toNat)

/-- `type_convert::memory_params_to_type`. -/
def memory_params_to_type (params : AwwasmMemoryParams) : AwwasmMemoryType :=
  AwwasmMemoryType.new params.min params.max

/-- The Store (`AwwasmStore` in `store.rs`): seven parallel instance
vectors. -/
structure AwwasmStore where
  funcs : List AwwasmFuncInst
  tables : List AwwasmTableInst
  mems : List AwwasmMemInst
  globals : List AwwasmGlobalInst
  elems : List AwwasmElemInst
  datas : List AwwasmDataInst
  modules : List AwwasmModuleInst
deriving DecidableEq, Repr

/-- `AwwasmStore::new`. -/
def AwwasmStore.new : AwwasmStore :=
  { funcs := [], tables := [], mems := [], globals := [], elems := [],
    datas := [], modules := [] }

/-- `AwwasmStore::alloc_func`: address is `funcs.len() as u32`, then push. -/
def AwwasmStore.alloc_func (s : AwwasmStore) (f : AwwasmFuncInst) :
    AwwasmFuncAddr × AwwasmStore :=
  (⟨u32cast s.funcs.length⟩, { s with funcs := s.funcs ++ [f] })

/-- `AwwasmStore::alloc_table`. -/
def AwwasmStore.alloc_table (s : AwwasmStore) (t : AwwasmTableInst) :
    AwwasmTableAddr × AwwasmStore :=
  (⟨u32cast s.tables.length⟩, { s with tables := s.tables ++ [t] })

/-- `AwwasmStore::alloc_mem`. -/
def AwwasmStore.alloc_mem (s : AwwasmStore) (m : AwwasmMemInst) :
    AwwasmMemAddr × AwwasmStore :=
  (⟨u32cast s.mems.length⟩, { s with mems := s.mems ++ [m] })

/-- `AwwasmStore::alloc_global`. -/
def AwwasmStore.alloc_global (s : AwwasmStore) (g : AwwasmGlobalInst) :
    AwwasmGlobalAddr × AwwasmStore :=
  (⟨u32cast s.globals.length⟩, { s with globals := s.globals ++ [g] })

/-- `AwwasmStore::alloc_elem`. -/
def AwwasmStore.alloc_elem (s : AwwasmStore) (e : AwwasmElemInst) :
    AwwasmElemAddr × AwwasmStore :=
  (⟨u32cast s.elems.length⟩, { s with elems := s.elems ++ [e] })

/-- `AwwasmStore::alloc_data`. -/
def AwwasmStore.alloc_data (s : AwwasmStore) (d : AwwasmDataInst) :
    AwwasmDataAddr × AwwasmStore :=
  (⟨u32cast s.datas.length⟩, { s with datas := s.datas ++ [d] })

/-- `AwwasmStore::register_module`. -/
def AwwasmStore.register_module (s : AwwasmStore) (m : AwwasmModuleInst) :
    AwwasmModuleAddr × AwwasmStore :=
  (⟨u32cast s.modules.length⟩, { s with modules := s.modules ++ [m] })

/-- The ASCII bytes of the string "self", used by `store_init` as the module
field of the overloaded `MissingImport` error on export resolution. -/
def selfNameBytes : List Nat := [115, 101, 108, 102]

/-- Step 1 of `store_init`: traverse the parsed import list in declaration
order, `take` the matching embedder entry by byte-equal `(module, name)`,
check the variant against the declared kind, move the instance into the
Store and append the address to the matching parallel array; table imports
are rejected with `UnsupportedType`. -/
def resolveImports :
    AwwasmStore → AwwasmModuleInst → AwwasmImports → List AwwasmImportItem →
    Except AwwasmInstantiationError (AwwasmStore × AwwasmModuleInst × AwwasmImports)
  | s, mi, imp, [] => .ok (s, mi, imp)
  | s, mi, imp, item :: rest =>
    match item.kind with
    | .Function =>
      match imp.take item.module.bytes item.name.bytes with
      | none => .error (.MissingImport item.module.bytes item.name.bytes)
      | some (entry, imp') =>
        match entry.value with
        | .Func func_inst =>
          let (addr, s') := s.alloc_func func_inst
          resolveImports s' { mi with funcaddrs := mi.funcaddrs ++ [addr] } imp' rest
        | _ => .error (.ImportTypeMismatch item.module.bytes item.name.bytes
            "function" "other")
    | .Memory =>
      match imp.take item.module.bytes item.name.bytes with
      | none => .error (.MissingImport item.module.bytes item.name.bytes)
      | some (entry, imp') =>
        match entry.value with
        | .Memory mem_inst =>
          let (addr, s') := s.alloc_mem mem_inst
          resolveImports s' { mi with memaddrs := mi.memaddrs ++ [addr] } imp' rest
        | _ => .error (.ImportTypeMismatch item.module.bytes item.name.bytes
            "memory" "other")
    | .Global =>
      match imp.take item.module.bytes item.name.bytes with
      | none => .error (.MissingImport item.module.bytes item.name.bytes)
      | some (entry, imp') =>
        match entry.value with
        | .Global global_inst =>
          let (addr, s') := s.alloc_global global_inst
          resolveImports s' { mi with globaladdrs := mi.globaladdrs ++ [addr] } imp' rest
        | _ => .error (.ImportTypeMismatch item.module.bytes item.name.bytes
            "global" "other")
    | .Table => .error (.UnsupportedType "table imports not yet supported")

/-- Step 2 of `store_init` (allocation loop): one Wasm function instance per
code entry, with `type_idx` hard-coded to 0, the pending module address, and
the unparsed body bytes; addresses are appended to `funcaddrs`. -/
def allocFuncs (pending : AwwasmModuleAddr) :
    AwwasmStore → AwwasmModuleInst → List AwwasmCodeItem →
    AwwasmStore × AwwasmModuleInst
  | s, mi, [] => (s, mi)
  | s, mi, item :: rest =>
    let func := AwwasmFuncInst.wasm 0 pending item.func_body
    let (addr, s') := s.alloc_func func
    allocFuncs pending s' { mi with funcaddrs := mi.funcaddrs ++ [addr] } rest

/-- Step 3 of `store_init`: allocate one zero-filled memory per declared
memory, converting the parser limits, appending to `memaddrs`. -/
def allocMems :
    AwwasmStore → AwwasmModuleInst → List AwwasmMemoryItem →
    AwwasmStore × AwwasmModuleInst
  | s, mi, [] => (s, mi)
  | s, mi, item :: rest =>
    let mem := AwwasmMemInst.new (memory_params_to_type item.limits)
    let (addr, s') := s.alloc_mem mem
    allocMems s' { mi with memaddrs := mi.memaddrs ++ [addr] } rest

/-- Step 5 of `store_init`: allocate one data instance per data segment,
borrowing the segment bytes, appending to `dataaddrs`. -/
def allocDatas :
    AwwasmStore → AwwasmModuleInst → List AwwasmDataItem →
    AwwasmStore × AwwasmModuleInst
  | s, mi, [] => (s, mi)
  | s, mi, item :: rest =>
    let (addr, s') := s.alloc_data (AwwasmDataInst.new item.data_bytes)
    allocDatas s' { mi with dataaddrs := mi.dataaddrs ++ [addr] } rest

/-- Step 6 of `store_init`: resolve each export's module-local index through
the parallel array of its kind; a missing index is reported with the
overloaded `MissingImport` error with module "self". -/
def resolveExports :
    AwwasmModuleInst → List AwwasmExportItem →
    Except AwwasmInstantiationError AwwasmModuleInst
  | mi, [] => .ok mi
  | mi, item :: rest =>
    match item.kind with
    | .Function =>
      match mi.funcaddrs[item.index]? with
      | none => .error (.MissingImport selfNameBytes item.name.bytes)
      | some a =>
        resolveExports
          { mi with exports := mi.exports ++ [AwwasmExportInst.new item.name.bytes (.Func a)] }
          rest
    | .Memory =>
      match mi.memaddrs[item.index]? with
      | none => .error (.MissingImport selfNameBytes item.name.bytes)
      | some a =>
        resolveExports
          { mi with exports := mi.exports ++ [AwwasmExportInst.new item.name.bytes (.Mem a)] }
          rest
    | .Table =>
      match mi.tableaddrs[item.index]? with
      | none => .error (.MissingImport selfNameBytes item.name.bytes)
      | some a =>
        resolveExports
          { mi with exports := mi.exports ++ [AwwasmExportInst.new item.name.bytes (.Table a)] }
          rest
    | .Global =>
      match mi.globaladdrs[item.index]? with
      | none => .error (.MissingImport selfNameBytes item.name.bytes)
      | some a =>
        resolveExports
          { mi with exports := mi.exports ++ [AwwasmExportInst.new item.name.bytes (.Global a)] }
          rest

/-- Step 7 of `store_init`: for each data segment (with its index), skip
passive segments (flags 1); for active ones resolve the memory index
(explicit only for flags 2) through `memaddrs`, evaluate the constant offset
expression, bounds-check `offset + len ≤ mem_size`, and copy the bytes into
the linear memory. -/
def initActiveData (mi : AwwasmModuleInst) :
    AwwasmStore → List (Nat × AwwasmDataItem) →
    Except AwwasmInstantiationError AwwasmStore
  | s, [] => .ok s
  | s, (seg_idx, item) :: rest =>
    if item.header.flags == 1 then initActiveData mi s rest
    else
      let memidx := if item.header.flags == 2 then item.header.memidx.getD 0 else 0
      match item.header.offset with
      | none => .error (.InvalidConstExpr
          ("data segment " ++ toString seg_idx ++ " missing offset expression"))
      | some expr =>
        match eval_const_expr expr.code with
        | .error e => .error e
        | .ok offset =>
          match mi.memaddrs[memidx]? with
          | none => .error (.DataSegmentOutOfBounds (u32cast seg_idx)
              (u32cast offset) (u32cast item.data_bytes.length) 0)
          | some maddr =>
            match s.mems[maddr.val]? with
            | none => .error (.DataSegmentOutOfBounds (u32cast seg_idx)
                (u32cast offset) (u32cast item.data_bytes.length) 0)
            | some mem =>
              if mem.data.length < offset + item.data_bytes.length then
                .error (.DataSegmentOutOfBounds (u32cast seg_idx)
                  (u32cast offset) (u32cast item.data_bytes.length)
                  (u32cast mem.data.length))
              else
                let mem' := { mem with data := listSplice mem.data offset item.data_bytes }
                initActiveData mi { s with mems := s.mems.set maddr.val mem' } rest

/-- `AwwasmStore::store_init`: the instantiation pipeline — resolve imports,
check the function/code sections, pre-compute the pending module address,
allocate functions, memories and data segments (the globals section of the
module is never consulted), resolve exports, initialize active data
segments, and register the module instance. -/
def AwwasmStore.store_init (s : AwwasmStore) (module : AwwasmModule)
    (imports : AwwasmImports) :
    Except AwwasmInstantiationError (AwwasmModuleAddr × AwwasmStore × AwwasmImports) :=
  match resolveImports s AwwasmModuleInst.new imports (module.imports.getD []) with
  | .error e => .error e
  | .ok (s1, mi1, imports1) =>
    let func_items := module.funcs.getD []
    let code_items := module.code.getD []
    if !func_items.isEmpty && func_items.length != code_items.length then
      .error (.FuncCodeMismatch (u32cast func_items.length) (u32cast code_items.length))
    else
      let pending_module_addr : AwwasmModuleAddr := ⟨u32cast s1.modules.length⟩
      let sm2 := allocFuncs pending_module_addr s1 mi1 code_items
      let sm3 := allocMems sm2.1 sm2.2 (module.memories.getD [])
      let sm4 := allocDatas sm3.1 sm3.2 (module.data.getD [])
      match resolveExports sm4.2 (module.exports.getD []) with
      | .error e => .error e
      | .ok mi5 =>
        match initActiveData mi5 sm4.1 (module.data.getD []).enum with
        | .error e => .error e
        | .ok s5 =>
          let as6 := s5.register_module mi5
          .ok (as6.1, as6.2, imports1)

/-! Helper lemmas about the list primitives used by the embedding. -/

theorem listSplice_length {α : Type} (l : List α) (at_ : Nat) (seg : List α)
    (h : at_ + seg.length ≤ l.length) : (listSplice l at_ seg).length = l.length := by
  simp [listSplice]
  omega

theorem listSplice_getElem_left {α : Type} (l : List α) (at_ : Nat) (seg : List α)
    (i : Nat) (h : at_ ≤ l.length) (hi : i < at_) :
    (listSplice l at_ seg)[i]? = l[i]? := by
  unfold listSplice
  have ht : (l.take at_).length = at_ := by rw [List.length_take]; omega
  rw [List.append_assoc, List.getElem?_append, ht, if_pos hi, List.getElem?_take,
    if_pos hi]

theorem listSplice_getElem_mid {α : Type} (l : List α) (at_ : Nat) (seg : List α)
    (i : Nat) (h : at_ ≤ l.length) (hi : i < seg.length) :
    (listSplice l at_ seg)[at_ + i]? = seg[i]? := by
  unfold listSplice
  have ht : (l.take at_).length = at_ := by rw [List.length_take]; omega
  rw [List.append_assoc, List.getElem?_append, ht, if_neg (by omega)]
  simp only [Nat.add_sub_cancel_left]
  rw [List.getElem?_append, if_pos hi]

theorem listSplice_getElem_right {α : Type} (l : List α) (at_ : Nat) (seg : List α)
    (i : Nat) (h : at_ ≤ l.length) (hi : at_ + seg.length ≤ i) :
    (listSplice l at_ seg)[i]? = l[i]? := by
  unfold listSplice
  have hts : (l.take at_ ++ seg).length = at_ + seg.length := by
    simp [List.length_take]
    omega
  rw [List.getElem?_append, hts, if_neg (by omega), List.getElem?_drop]
  congr 1
  omega

theorem listSplice_recover {α : Type} (l : List α) (at_ : Nat) (seg : List α)
    (h : at_ ≤ l.length) :
    ((listSplice l at_ seg).drop at_).take seg.length = seg := by
  unfold listSplice
  rw [List.append_assoc, List.drop_left' (by rw [List.length_take]; omega)]
  exact List.take_left seg _

theorem listResize_of_le {α : Type} (l : List α) (n : Nat) (v : α)
    (h : l.length ≤ n) : listResize l n v = l ++ List.replicate (n - l.length) v := by
  unfold listResize
  split
  · have hn : n = l.length := by omega
    subst hn
    simp
  · rfl

theorem toLeBytes_length (v n : Nat) : (toLeBytes v n).length = n := by
  induction n generalizing v with
  | zero => rfl
  | succ k ih => simp [toLeBytes, ih]

theorem fromLeBytes_toLeBytes (v n : Nat) :
    fromLeBytes (toLeBytes v n) = v % 256 ^ n := by
  induction n generalizing v with
  | zero => simp [toLeBytes, fromLeBytes, Nat.mod_one]
  | succ k ih =>
    rw [toLeBytes, fromLeBytes, ih]
    rw [pow_succ, mul_comm (256 ^ k) 256, Nat.mod_mul]

/-- Claim C7: calling `set` on an immutable global returns the mutability
error and leaves the stored value unchanged, for every value argument;
calling `set` on a mutable global succeeds and the stored value afterwards
equals the value argument. -/
theorem C7_global_set_mutability (g : AwwasmGlobalInst) (v : AwwasmValue) :
    (g.type_.mutable = false → g.set v = (g, Except.error ())) ∧
    (g.type_.mutable = true →
      (g.set v).1.value = v ∧ (g.set v).2 = Except.ok ()) := by
  unfold AwwasmGlobalInst.set
  constructor
  · intro h
    simp [h]
  · intro h
    simp [h]

/-- Witness for C7 at a concrete immutable global. -/
theorem C7_global_set_mutability_witness :
    (AwwasmGlobalInst.new (AwwasmGlobalType.immutable .I32) (.I32 0)).type_.mutable = false ∧
    (AwwasmGlobalInst.new (AwwasmGlobalType.immutable .I32) (.I32 0)).set (.I32 7) =
      (AwwasmGlobalInst.new (AwwasmGlobalType.immutable .I32) (.I32 0), Except.error ()) :=
  ⟨by decide,
   (C7_global_set_mutability (AwwasmGlobalInst.new (AwwasmGlobalType.immutable .I32) (.I32 0)) (.I32 7)).1 (by decide)⟩

/-- Counterexample to claim C2: on a mutable `i32` global holding `I32 0`
(so the type invariant holds), `set` with the differently-typed value
`I64 5` succeeds and afterwards the stored value's type differs from the
declared type — `set` performs no type check. -/
theorem C2_counterexample :
    ((AwwasmGlobalInst.new (AwwasmGlobalType.mut .I32) (.I32 0)).value.value_type =
      (AwwasmGlobalInst.new (AwwasmGlobalType.mut .I32) (.I32 0)).type_.value_type) ∧
    (((AwwasmGlobalInst.new (AwwasmGlobalType.mut .I32) (.I32 0)).set (.I64 5)).2 = Except.ok ()) ∧
    (((AwwasmGlobalInst.new (AwwasmGlobalType.mut .I32) (.I32 0)).set (.I64 5)).1.value.value_type ≠
      ((AwwasmGlobalInst.new (AwwasmGlobalType.mut .I32) (.I32 0)).set (.I64 5)).1.type_.value_type) :=
  ⟨rfl, rfl, by decide⟩

/-- Claim C2 (amended): the invariant `value.value_type = declared
value_type` holds after construction whenever the initial value has the
declared type, is preserved by every failed `set`, and is preserved by every
successful `set` whose value argument has the declared type; `set` itself
does not enforce the type check, so a successful `set` with a
differently-typed value breaks the invariant. -/
theorem C2_amended_invariant :
    (∀ (t : AwwasmGlobalType) (v : AwwasmValue), v.value_type = t.value_type →
      (AwwasmGlobalInst.new t v).value.value_type = (AwwasmGlobalInst.new t v).type_.value_type) ∧
    (∀ (g : AwwasmGlobalInst) (v : AwwasmValue),
      g.value.value_type = g.type_.value_type →
      v.value_type = g.type_.value_type →
      ((g.set v).1.value.value_type = (g.set v).1.type_.value_type)) ∧
    (∀ (g : AwwasmGlobalInst) (v : AwwasmValue),
      (g.set v).2 = Except.error () → (g.set v).1 = g) := by
  refine ⟨fun t v h => h, fun g v hg hv => ?_, fun g v => ?_⟩
  · unfold AwwasmGlobalInst.set
    by_cases hm : g.type_.mutable <;> simp [hm, hg, hv]
  · unfold AwwasmGlobalInst.set
    by_cases hm : g.type_.mutable <;> simp [hm]

/-- Witness for the amended C2 at a concrete mutable global. -/
theorem C2_amended_invariant_witness :
    ((AwwasmValue.I32 7).value_type =
      (AwwasmGlobalInst.new (AwwasmGlobalType.mut .I32) (.I32 0)).type_.value_type) ∧
    ((AwwasmGlobalInst.new (AwwasmGlobalType.mut .I32) (.I32 0)).value.value_type =
      (AwwasmGlobalInst.new (AwwasmGlobalType.mut .I32) (.I32 0)).type_.value_type) ∧
    (((AwwasmGlobalInst.new (AwwasmGlobalType.mut .I32) (.I32 0)).set (.I32 7)).1.value.value_type =
      ((AwwasmGlobalInst.new (AwwasmGlobalType.mut .I32) (.I32 0)).set (.I32 7)).1.type_.value_type) :=
  ⟨by decide, by decide,
   C2_amended_invariant.2.1 (AwwasmGlobalInst.new (AwwasmGlobalType.mut .I32) (.I32 0)) (.I32 7)
     (by decide) (by decide)⟩

/-- Claim C10: whenever `write`, `fill` or `copy_within` returns a
`MemoryOutOfBounds` trap, the memory is exactly as before the call — all
bounds checks happen before any byte is modified. -/
theorem C10_trap_leaves_memory_unchanged (m : AwwasmMemInst) (offset : Nat)
    (bytes : List Nat) (value size dst src : Nat) (t : AwwasmTrap) :
    ((m.write offset bytes).2 = some t → (m.write offset bytes).1 = m) ∧
    ((m.fill offset value size).2 = some t → (m.fill offset value size).1 = m) ∧
    ((m.copy_within dst src size).2 = some t → (m.copy_within dst src size).1 = m) := by
  refine ⟨?_, ?_, ?_⟩
  · unfold AwwasmMemInst.write
    split
    · intro h
      simp at h
    · intro _
      rfl
  · unfold AwwasmMemInst.fill
    split
    · intro h
      simp at h
    · intro _
      rfl
  · simp only [AwwasmMemInst.copy_within]
    split
    · intro _
      rfl
    · split
      · intro _
        rfl
      · intro h
        simp at h

def memC10 : AwwasmMemInst := { type_ := ⟨0, none⟩, data := [0, 0, 0] }

/-- Witness for C10 at a concrete out-of-bounds write. -/
theorem C10_trap_leaves_memory_unchanged_witness :
    ((memC10.write 2 [9, 9]).2 = some (.MemoryOutOfBounds 2 2 3)) ∧
    ((memC10.write 2 [9, 9]).1 = memC10) :=
  ⟨by decide,
   (C10_trap_leaves_memory_unchanged memC10 2 [9, 9] 0 0 0 0
     (.MemoryOutOfBounds 2 2 3)).1 (by decide)⟩

/-- The memory-instance shape invariant of the spec's data model: the
buffer length is a whole multiple of the page size and the page count is at
most the 65,536-page implementation ceiling.  `AwwasmMemInst::new` and
`grow` both maintain it. -/
def AwwasmMemInst.wf (m : AwwasmMemInst) : Prop :=
  ∃ p, p ≤ 65536 ∧ m.data.length = p * PAGE_SIZE

/-- Under the shape invariant the `as u32` cast in `size_pages` is exact. -/
theorem size_pages_of_wf (m : AwwasmMemInst) (p : Nat) (hp : p ≤ 65536)
    (hlen : m.data.length = p * PAGE_SIZE) : m.size_pages = p := by
  unfold AwwasmMemInst.size_pages u32cast
  rw [hlen, Nat.mul_div_cancel _ (by norm_num [PAGE_SIZE])]
  exact Nat.mod_eq_of_lt (lt_of_le_of_lt hp (by norm_num [U32_MOD]))

/-- Claim C4: `grow(delta)` returns `none` and leaves the memory (hence
page count and buffer) unchanged exactly when the new page count overflows
`u32`, exceeds a declared maximum, or exceeds 65,536; otherwise it extends
the buffer with a zero-filled tail to `new_pages * 65,536` bytes and returns
the previous page count; the page count never decreases. -/
theorem C4_mem_grow (m : AwwasmMemInst) (delta : Nat) (hwf : m.wf) :
    ((m.grow delta).2 = none → (m.grow delta).1 = m) ∧
    ((m.grow delta).2 = none ↔
      (U32_MOD ≤ m.size_pages + delta ∨
       (∃ mx, m.type_.max = some mx ∧ mx < m.size_pages + delta) ∨
       65536 < m.size_pages + delta)) ∧
    ((m.grow delta).2 ≠ none →
      (m.grow delta).2 = some m.size_pages ∧
      (m.grow delta).1.data = m.data ++ List.replicate (delta * PAGE_SIZE) 0 ∧
      (m.grow delta).1.size_pages = m.size_pages + delta) ∧
    m.size_pages ≤ (m.grow delta).1.size_pages := by
  obtain ⟨p, hp, hlen⟩ := hwf
  have hsz : m.size_pages = p := size_pages_of_wf m p hp hlen
  have hgrow :
      m.grow delta =
        if U32_MOD ≤ p + delta then (m, none)
        else if (match m.type_.max with | some mx => decide (mx < p + delta) | none => false) then
          (m, none)
        else if 65536 < p + delta then (m, none)
        else ({ m with data := listResize m.data ((p + delta) * PAGE_SIZE) 0 }, some p) := by
    simp only [AwwasmMemInst.grow, hsz]
  by_cases h1 : U32_MOD ≤ p + delta
  · have hG : m.grow delta = (m, none) := by rw [hgrow, if_pos h1]
    rw [hG]
    exact ⟨fun _ => rfl, iff_of_true rfl (Or.inl (by rw [hsz]; exact h1)),
      fun hne => absurd rfl hne, le_refl _⟩
  · by_cases hmx2 : (∃ mx, m.type_.max = some mx ∧ mx < p + delta)
    · obtain ⟨mx, hmax, h2⟩ := hmx2
      have hG : m.grow delta = (m, none) := by
        rw [hgrow, if_neg h1, hmax]
        rw [if_pos (by simp [h2])]
      rw [hG]
      exact ⟨fun _ => rfl,
        iff_of_true rfl (Or.inr (Or.inl ⟨mx, hmax, by rw [hsz]; exact h2⟩)),
        fun hne => absurd rfl hne, le_refl _⟩
    · have hmatch : (match m.type_.max with
          | some mx => decide (mx < p + delta) | none => false) = false := by
        rcases hmax : m.type_.max with _ | mx
        · rfl
        · simp only [decide_eq_false_iff_not]
          intro hlt
          exact hmx2 ⟨mx, hmax, hlt⟩
      by_cases h3 : 65536 < p + delta
      · have hG : m.grow delta = (m, none) := by
          rw [hgrow, if_neg h1, hmatch]
          simp only [Bool.false_eq_true, if_false, if_pos h3]
        rw [hG]
        exact ⟨fun _ => rfl, iff_of_true rfl (Or.inr (Or.inr (by rw [hsz]; exact h3))),
          fun hne => absurd rfl hne, le_refl _⟩
      · have hG : m.grow delta =
            ({ m with data := listResize m.data ((p + delta) * PAGE_SIZE) 0 }, some p) := by
          rw [hgrow, if_neg h1, hmatch]
          simp only [Bool.false_eq_true, if_false, if_neg h3]
        have hle : m.data.length ≤ (p + delta) * PAGE_SIZE := by
          rw [hlen]
          exact Nat.mul_le_mul_right _ (by omega)
        have hres : listResize m.data ((p + delta) * PAGE_SIZE) 0 =
            m.data ++ List.replicate (delta * PAGE_SIZE) 0 := by
          rw [listResize_of_le _ _ _ hle, hlen]
          congr 2
          rw [Nat.add_mul]
          omega
        have hsp : ({ m with data := listResize m.data ((p + delta) * PAGE_SIZE) 0 } :
            AwwasmMemInst).size_pages = p + delta := by
          apply size_pages_of_wf _ (p + delta) (by omega)
          simp only [hres, List.length_append, List.length_replicate, hlen]
          rw [Nat.add_mul]
        rw [hG]
        refine ⟨fun h => absurd h (by simp), ?_, fun _ => ⟨by rw [hsz], hres, ?_⟩, ?_⟩
        · refine iff_of_false (by simp) ?_
          rw [hsz]
          rintro (h | ⟨mx2, hmax2, hlt⟩ | h)
          · exact h1 h
          · exact hmx2 ⟨mx2, hmax2, hlt⟩
          · exact h3 h
        · rw [hsp, hsz]
        · rw [hsp]
          omega

/-- Witness for C4 at a concrete one-page memory grown by two pages. -/
theorem C4_mem_grow_witness :
    (AwwasmMemInst.new (AwwasmMemoryType.new 1 (some 4))).wf ∧
    (AwwasmMemInst.new (AwwasmMemoryType.new 1 (some 4))).size_pages ≤
      (((AwwasmMemInst.new (AwwasmMemoryType.new 1 (some 4))).grow 2).1).size_pages := by
  have hwf : (AwwasmMemInst.new (AwwasmMemoryType.new 1 (some 4))).wf :=
    ⟨1, by norm_num, by simp [AwwasmMemInst.new, AwwasmMemoryType.new]⟩
  exact ⟨hwf, (C4_mem_grow _ 2 hwf).2.2.2⟩

/-- Claim C5 (amended): `read(offset, size)` succeeds, returning the
`size` bytes starting at `offset`, exactly when `offset + size` (computed
without wraparound) is at most the buffer length; otherwise it traps with
`MemoryOutOfBounds` carrying the offset, the size and the byte length
truncated to `u32` (equal to the byte length for every memory below
65,536 pages). -/
theorem C5_mem_read_bounds (m : AwwasmMemInst) (offset size : Nat) :
    ((m.read offset size).isOk = true ↔ offset + size ≤ m.data.length) ∧
    (offset + size ≤ m.data.length →
      ∃ bs, m.read offset size = .ok bs ∧ bs.length = size ∧
        ∀ i, i < size → bs[i]? = m.data[offset + i]?) ∧
    (m.data.length < offset + size →
      m.read offset size =
        .error (.MemoryOutOfBounds offset size (u32cast m.data.length))) := by
  by_cases h : offset + size ≤ m.data.length
  · have hread : m.read offset size = .ok ((m.data.drop offset).take size) := by
      rw [AwwasmMemInst.read, if_pos h]
    refine ⟨by simp [hread, Except.isOk, Except.toBool, h], fun _ => ?_, fun hc => by omega⟩
    refine ⟨(m.data.drop offset).take size, hread, ?_, ?_⟩
    · rw [List.length_take, List.length_drop]
      omega
    · intro i hi
      rw [List.getElem?_take, if_pos hi, List.getElem?_drop]
  · have hread : m.read offset size =
        .error (.MemoryOutOfBounds offset size (u32cast m.data.length)) := by
      rw [AwwasmMemInst.read, if_neg h]
    refine ⟨by simp [hread, Except.isOk, Except.toBool, h], fun hc => absurd hc h,
      fun _ => hread⟩

/-- Witness for C5 at a concrete in-bounds read. -/
theorem C5_mem_read_bounds_witness :
    (0 + 2 ≤ memC10.data.length) ∧
    (∃ bs, memC10.read 0 2 = .ok bs ∧ bs.length = 2 ∧
      ∀ i, i < 2 → bs[i]? = memC10.data[0 + i]?) :=
  ⟨by decide, (C5_mem_read_bounds memC10 0 2).2.1 (by decide)⟩


/-- The maximal legal memory: 65,536 pages, exactly `2^32` bytes. -/
def bigMemC5 : AwwasmMemInst := AwwasmMemInst.new (AwwasmMemoryType.new 65536 none)

/-- The maximal memory's byte length is `2^32`. -/
theorem bigMemC5_len : bigMemC5.data.length = U32_MOD := by
  have h1 : bigMemC5.data = List.replicate (65536 * PAGE_SIZE) 0 := rfl
  rw [h1, List.length_replicate]
  norm_num [PAGE_SIZE, U32_MOD]

/-- Counterexample to claim C5 as stated: on the maximal 65,536-page
memory an out-of-bounds read traps with `memory_size = 0` (the byte length
`2^32` truncated to `u32`), not with the memory's byte length. -/
theorem C5_counterexample :
    bigMemC5.data.length = U32_MOD ∧
    bigMemC5.read (U32_MOD - 1) 2 = .error (.MemoryOutOfBounds (U32_MOD - 1) 2 0) ∧
    bigMemC5.read (U32_MOD - 1) 2 ≠
      .error (.MemoryOutOfBounds (U32_MOD - 1) 2 bigMemC5.data.length) := by
  have hread : bigMemC5.read (U32_MOD - 1) 2 =
      .error (.MemoryOutOfBounds (U32_MOD - 1) 2 0) := by
    rw [AwwasmMemInst.read, bigMemC5_len, if_neg (by norm_num [U32_MOD])]
    have hz : u32cast U32_MOD = 0 := by norm_num [u32cast, U32_MOD]
    rw [hz]
  refine And.intro bigMemC5_len (And.intro hread ?_)
  rw [hread, bigMemC5_len]
  intro hcontra
  rw [Except.error.injEq, AwwasmTrap.MemoryOutOfBounds.injEq] at hcontra
  norm_num [U32_MOD] at hcontra

/-- A successful `write` followed by a `read` of the same span returns
exactly the written bytes. -/
theorem write_read_roundtrip (m : AwwasmMemInst) (offset : Nat) (bs : List Nat)
    (h : (m.write offset bs).2 = none) :
    ((m.write offset bs).1).read offset bs.length = .ok bs := by
  by_cases hb : offset + bs.length ≤ m.data.length
  · have hw : (m.write offset bs).1 = { m with data := listSplice m.data offset bs } := by
      rw [AwwasmMemInst.write, if_pos hb]
    rw [hw, AwwasmMemInst.read]
    have hlen : (listSplice m.data offset bs).length = m.data.length :=
      listSplice_length _ _ _ hb
    simp only [hlen]
    rw [if_pos hb, listSplice_recover _ _ _ (by omega)]
  · rw [AwwasmMemInst.write, if_neg hb] at h
    simp at h

/-- Claim C9: for each of `i32`, `i64`, `f32`, `f64` (floats as bit
patterns, hence bit-for-bit), a successful typed little-endian write
followed by the typed read at the same offset returns exactly the value
written. -/
theorem C9_le_roundtrip (m : AwwasmMemInst) (offset v : Nat) :
    (v < 2 ^ 32 → (m.write_i32 offset v).2 = none →
      ((m.write_i32 offset v).1).read_i32 offset = .ok v) ∧
    (v < 2 ^ 64 → (m.write_i64 offset v).2 = none →
      ((m.write_i64 offset v).1).read_i64 offset = .ok v) ∧
    (v < 2 ^ 32 → (m.write_f32 offset v).2 = none →
      ((m.write_f32 offset v).1).read_f32 offset = .ok v) ∧
    (v < 2 ^ 64 → (m.write_f64 offset v).2 = none →
      ((m.write_f64 offset v).1).read_f64 offset = .ok v) := by
  have h4 : ∀ w : Nat, w < 2 ^ 32 → fromLeBytes (toLeBytes w 4) = w := by
    intro w hw
    rw [fromLeBytes_toLeBytes]
    exact Nat.mod_eq_of_lt (by norm_num at hw ⊢; omega)
  have h8 : ∀ w : Nat, w < 2 ^ 64 → fromLeBytes (toLeBytes w 8) = w := by
    intro w hw
    rw [fromLeBytes_toLeBytes]
    exact Nat.mod_eq_of_lt (by norm_num at hw ⊢; omega)
  refine ⟨fun hv h => ?_, fun hv h => ?_, fun hv h => ?_, fun hv h => ?_⟩
  · rw [AwwasmMemInst.write_i32] at h ⊢
    rw [AwwasmMemInst.read_i32]
    have := write_read_roundtrip m offset (toLeBytes v 4) h
    rw [toLeBytes_length] at this
    rw [this]
    simp [Except.map, h4 v hv]
  · rw [AwwasmMemInst.write_i64] at h ⊢
    rw [AwwasmMemInst.read_i64]
    have := write_read_roundtrip m offset (toLeBytes v 8) h
    rw [toLeBytes_length] at this
    rw [this]
    simp [Except.map, h8 v hv]
  · rw [AwwasmMemInst.write_f32] at h ⊢
    rw [AwwasmMemInst.read_f32]
    have := write_read_roundtrip m offset (toLeBytes v 4) h
    rw [toLeBytes_length] at this
    rw [this]
    simp [Except.map, h4 v hv]
  · rw [AwwasmMemInst.write_f64] at h ⊢
    rw [AwwasmMemInst.read_f64]
    have := write_read_roundtrip m offset (toLeBytes v 8) h
    rw [toLeBytes_length] at this
    rw [this]
    simp [Except.map, h8 v hv]

def memC9 : AwwasmMemInst := { type_ := ⟨0, none⟩, data := [0, 0, 0, 0, 0, 0, 0, 0] }

/-- Witness for C9 at a concrete `i32` write/read. -/
theorem C9_le_roundtrip_witness :
    (3735928559 < 2 ^ 32) ∧ ((memC9.write_i32 1 3735928559).2 = none) ∧
    ((memC9.write_i32 1 3735928559).1).read_i32 1 = .ok 3735928559 :=
  ⟨by norm_num, by decide,
   (C9_le_roundtrip memC9 1 3735928559).1 (by norm_num) (by decide)⟩

/-- Memmove semantics of splicing the source span over the destination:
the destination range receives the original source bytes and everything
else is untouched. -/
theorem spliceCopy_spec {α : Type} (l : List α) (dst src n : Nat)
    (hs : src + n ≤ l.length) (hd : dst + n ≤ l.length) :
    (listSplice l dst ((l.drop src).take n)).length = l.length ∧
    (∀ i, i < n → (listSplice l dst ((l.drop src).take n))[dst + i]? = l[src + i]?) ∧
    (∀ j, j < dst ∨ dst + n ≤ j →
      (listSplice l dst ((l.drop src).take n))[j]? = l[j]?) := by
  have hseg : ((l.drop src).take n).length = n := by
    rw [List.length_take, List.length_drop]
    omega
  refine ⟨?_, ?_, ?_⟩
  · rw [listSplice_length]
    rw [hseg]
    omega
  · intro i hi
    rw [listSplice_getElem_mid _ _ _ _ (by omega) (by rw [hseg]; omega)]
    rw [List.getElem?_take, if_pos hi, List.getElem?_drop]
  · intro j hj
    rcases hj with hj | hj
    · exact listSplice_getElem_left _ _ _ _ (by omega) hj
    · exact listSplice_getElem_right _ _ _ _ (by omega) (by rw [hseg]; omega)

/-- Claim C6: after a successful `copy_within(dst, src, size)` on a
memory, the `size` bytes at `dst` equal the bytes that were at `src` before
the call — also when the ranges overlap — and everything outside the
destination range is unchanged; the same holds for a table's `copy_within`
over its slots (both of its overlap branches). -/
theorem C6_copy_within_overlap_safe :
    (∀ (m : AwwasmMemInst) (dst src size : Nat),
      (m.copy_within dst src size).2 = none →
        (m.copy_within dst src size).1.data.length = m.data.length ∧
        (∀ i, i < size →
          (m.copy_within dst src size).1.data[dst + i]? = m.data[src + i]?) ∧
        (∀ j, j < dst ∨ dst + size ≤ j →
          (m.copy_within dst src size).1.data[j]? = m.data[j]?)) ∧
    (∀ (t : AwwasmTableInst) (dst src count : Nat),
      (t.copy_within dst src count).2 = none →
        (t.copy_within dst src count).1.elem.length = t.elem.length ∧
        (∀ i, i < count →
          (t.copy_within dst src count).1.elem[dst + i]? = t.elem[src + i]?) ∧
        (∀ j, j < dst ∨ dst + count ≤ j →
          (t.copy_within dst src count).1.elem[j]? = t.elem[j]?)) := by
  constructor
  · intro m dst src size h
    have hmod : u32cast m.data.length ≤ m.data.length := Nat.mod_le _ _
    by_cases h1 : U32_MOD ≤ src + size ∨ u32cast m.data.length < src + size
    · simp only [AwwasmMemInst.copy_within, if_pos h1] at h
      simp at h
    · by_cases h2 : U32_MOD ≤ dst + size ∨ u32cast m.data.length < dst + size
      · simp only [AwwasmMemInst.copy_within, if_neg h1, if_pos h2] at h
        simp at h
      · have hG : (m.copy_within dst src size).1 =
            { m with data := listCopyWithin m.data src size dst } := by
          simp only [AwwasmMemInst.copy_within, if_neg h1, if_neg h2]
        rw [hG]
        push_neg at h1 h2
        exact spliceCopy_spec m.data dst src size (by omega) (by omega)
  · intro t dst src count h
    have hmod : u32cast t.elem.length ≤ t.elem.length := Nat.mod_le _ _
    by_cases h1 : U32_MOD ≤ src + count ∨ u32cast t.elem.length < src + count
    · simp only [AwwasmTableInst.copy_within, if_pos h1] at h
      simp at h
    · by_cases h2 : U32_MOD ≤ dst + count ∨ u32cast t.elem.length < dst + count
      · simp only [AwwasmTableInst.copy_within, if_neg h1, if_pos h2] at h
        simp at h
      · by_cases h3 : (src ≤ dst ∧ dst < src + count) ∨ (dst ≤ src ∧ src < dst + count)
        · have hG : (t.copy_within dst src count).1 =
              { t with elem := listSplice t.elem dst ((t.elem.drop src).take count) } := by
            simp only [AwwasmTableInst.copy_within, if_neg h1, if_neg h2, if_pos h3]
          rw [hG]
          push_neg at h1 h2
          exact spliceCopy_spec t.elem dst src count (by omega) (by omega)
        · have hG : (t.copy_within dst src count).1 =
              { t with elem := listCopyWithin t.elem src count dst } := by
            simp only [AwwasmTableInst.copy_within, if_neg h1, if_neg h2, if_neg h3]
          rw [hG]
          push_neg at h1 h2
          exact spliceCopy_spec t.elem dst src count (by omega) (by omega)

def tabC6 : AwwasmTableInst :=
  { type_ := AwwasmTableType.funcref 5 none,
    elem := [some ⟨10⟩, some ⟨11⟩, some ⟨12⟩, none, some ⟨14⟩] }

/-- Witness for C6 at a concrete overlapping table copy. -/
theorem C6_copy_within_overlap_safe_witness :
    ((tabC6.copy_within 1 0 3).2 = none) ∧
    (∀ i, i < 3 → (tabC6.copy_within 1 0 3).1.elem[1 + i]? = tabC6.elem[0 + i]?) :=
  ⟨by decide, (C6_copy_within_overlap_safe.2 tabC6 1 0 3 (by decide)).2.1⟩

/-- A parsed module whose globals section declares one immutable `i32`
global with initializer `i32.const 7` (bytes `0x41 0x07 0x0B`) and no other
sections. -/
def gModuleC1 : AwwasmModule :=
  { imports := none, funcs := none, code := none, memories := none,
    globals := some [⟨AwwasmGlobalType.immutable .I32, [65, 7, 11]⟩],
    data := none, exports := none }

/-- Claim C1, evaluated at the failing input: instantiating a module with
one declared global succeeds but allocates no global instance and leaves
`globaladdrs` empty — `store_init` never reads the globals section, although
its own documentation (step 3, "Allocates module-defined memories, globals")
and the spec's Step 4 require one global instance per declared global. -/
theorem C1_store_init_ignores_declared_globals :
    (gModuleC1.globals.getD []).length = 1 ∧
    AwwasmStore.new.store_init gModuleC1 AwwasmImports.new =
      .ok (⟨0⟩, { AwwasmStore.new with modules := [AwwasmModuleInst.new] },
        AwwasmImports.new) := by
  constructor
  · rfl
  · rfl

/-- A successful import resolution leaves the module vector untouched and
allocates exactly one function instance per import of kind Function. -/
theorem resolveImports_ok_shape (items : List AwwasmImportItem) :
    ∀ (s : AwwasmStore) (mi : AwwasmModuleInst) (imp : AwwasmImports)
      (s' : AwwasmStore) (mi' : AwwasmModuleInst) (imp' : AwwasmImports),
      resolveImports s mi imp items = .ok (s', mi', imp') →
      s'.modules = s.modules ∧
      s'.funcs.length =
        s.funcs.length + items.countP (fun it => it.kind == AwwasmImportKind.Function) := by
  induction items with
  | nil =>
    intro s mi imp s' mi' imp' h
    simp only [resolveImports, Except.ok.injEq, Prod.mk.injEq] at h
    obtain ⟨h1, -, -⟩ := h
    subst h1
    simp
  | cons item rest ih =>
    intro s mi imp s' mi' imp' h
    rcases hk : item.kind with _ | _ | _ | _ <;>
      simp only [resolveImports, hk] at h
    case Function =>
      split at h
      · simp at h
      · split at h
        · rename_i f
          simp only [AwwasmStore.alloc_func] at h
          obtain ⟨h1, h2⟩ := ih _ _ _ _ _ _ h
          refine ⟨h1, ?_⟩
          rw [h2]
          simp only [List.countP_cons, hk, List.length_append]
          simp
          omega
        · simp at h
    case Memory =>
      split at h
      · simp at h
      · split at h
        · rename_i mm
          simp only [AwwasmStore.alloc_mem] at h
          obtain ⟨h1, h2⟩ := ih _ _ _ _ _ _ h
          refine ⟨h1, ?_⟩
          rw [h2]
          simp [List.countP_cons, hk]
        · simp at h
    case Global =>
      split at h
      · simp at h
      · split at h
        · rename_i g
          simp only [AwwasmStore.alloc_global] at h
          obtain ⟨h1, h2⟩ := ih _ _ _ _ _ _ h
          refine ⟨h1, ?_⟩
          rw [h2]
          simp [List.countP_cons, hk]
        · simp at h
    case Table =>
      simp at h

/-- The function-allocation loop of Step 2 appends exactly one Wasm
function instance per code entry, embedding the pending module address, and
touches nothing else in the Store. -/
theorem allocFuncs_store (pending : AwwasmModuleAddr) (items : List AwwasmCodeItem) :
    ∀ (s : AwwasmStore) (mi : AwwasmModuleInst),
      (allocFuncs pending s mi items).1 =
        { s with funcs := s.funcs ++
            items.map (fun c => AwwasmFuncInst.wasm 0 pending c.func_body) } := by
  induction items with
  | nil =>
    intro s mi
    simp [allocFuncs]
  | cons item rest ih =>
    intro s mi
    simp only [allocFuncs, AwwasmStore.alloc_func]
    rw [ih]
    simp

/-- The memory-allocation loop of Step 3 appends one zero-filled memory
per declared memory and touches nothing else in the Store. -/
theorem allocMems_store (items : List AwwasmMemoryItem) :
    ∀ (s : AwwasmStore) (mi : AwwasmModuleInst),
      (allocMems s mi items).1 =
        { s with mems := s.mems ++
            items.map (fun it => AwwasmMemInst.new (memory_params_to_type it.limits)) } := by
  induction items with
  | nil =>
    intro s mi
    simp [allocMems]
  | cons item rest ih =>
    intro s mi
    simp only [allocMems, AwwasmStore.alloc_mem]
    rw [ih]
    simp

/-- The data-allocation loop of Step 5 appends one data instance per data
segment and touches nothing else in the Store. -/
theorem allocDatas_store (items : List AwwasmDataItem) :
    ∀ (s : AwwasmStore) (mi : AwwasmModuleInst),
      (allocDatas s mi items).1 =
        { s with datas := s.datas ++
            items.map (fun it => AwwasmDataInst.new it.data_bytes) } := by
  induction items with
  | nil =>
    intro s mi
    simp [allocDatas]
  | cons item rest ih =>
    intro s mi
    simp only [allocDatas, AwwasmStore.alloc_data]
    rw [ih]
    simp

/-- Successful active-data initialization only writes into existing
memories: every other Store component, and in particular the module vector,
is unchanged. -/
theorem initActiveData_ok_shape (mi : AwwasmModuleInst)
    (items : List (Nat × AwwasmDataItem)) :
    ∀ (s s' : AwwasmStore), initActiveData mi s items = .ok s' →
      s'.funcs = s.funcs ∧ s'.tables = s.tables ∧ s'.globals = s.globals ∧
      s'.elems = s.elems ∧ s'.datas = s.datas ∧ s'.modules = s.modules := by
  induction items with
  | nil =>
    intro s s' h
    simp only [initActiveData, Except.ok.injEq] at h
    subst h
    exact ⟨rfl, rfl, rfl, rfl, rfl, rfl⟩
  | cons item rest ih =>
    intro s s' h
    obtain ⟨seg_idx, ditem⟩ := item
    simp only [initActiveData] at h
    split at h
    · exact ih _ _ h
    · split at h
      · simp at h
      · split at h
        · simp at h
        · split at h
          · simp at h
          · split at h
            · simp at h
            · split at h
              · simp at h
              · obtain ⟨h1, h2, h3, h4, h5, h6⟩ := ih _ _ h
                exact ⟨h1, h2, h3, h4, h5, h6⟩

/-- Claim C8: every allocation method returns an address whose numeric
value is the count of that kind immediately before the allocation (exact
whenever that count fits in `u32`) and grows that count by one; on success
`store_init` returns a module address equal to the Store's module count at
the pre-computation moment, and that pending address is embedded in every
module-defined Wasm function instance. -/
theorem C8_alloc_address_equals_count :
    (∀ (s : AwwasmStore) (x : AwwasmFuncInst),
      (s.funcs.length < U32_MOD → (s.alloc_func x).1.val = s.funcs.length) ∧
      (s.alloc_func x).2.funcs.length = s.funcs.length + 1) ∧
    (∀ (s : AwwasmStore) (x : AwwasmTableInst),
      (s.tables.length < U32_MOD → (s.alloc_table x).1.val = s.tables.length) ∧
      (s.alloc_table x).2.tables.length = s.tables.length + 1) ∧
    (∀ (s : AwwasmStore) (x : AwwasmMemInst),
      (s.mems.length < U32_MOD → (s.alloc_mem x).1.val = s.mems.length) ∧
      (s.alloc_mem x).2.mems.length = s.mems.length + 1) ∧
    (∀ (s : AwwasmStore) (x : AwwasmGlobalInst),
      (s.globals.length < U32_MOD → (s.alloc_global x).1.val = s.globals.length) ∧
      (s.alloc_global x).2.globals.length = s.globals.length + 1) ∧
    (∀ (s : AwwasmStore) (x : AwwasmElemInst),
      (s.elems.length < U32_MOD → (s.alloc_elem x).1.val = s.elems.length) ∧
      (s.alloc_elem x).2.elems.length = s.elems.length + 1) ∧
    (∀ (s : AwwasmStore) (x : AwwasmDataInst),
      (s.datas.length < U32_MOD → (s.alloc_data x).1.val = s.datas.length) ∧
      (s.alloc_data x).2.datas.length = s.datas.length + 1) ∧
    (∀ (s : AwwasmStore) (x : AwwasmModuleInst),
      (s.modules.length < U32_MOD → (s.register_module x).1.val = s.modules.length) ∧
      (s.register_module x).2.modules.length = s.modules.length + 1) ∧
    (∀ (s : AwwasmStore) (m : AwwasmModule) (imp : AwwasmImports)
       (a : AwwasmModuleAddr) (s2 : AwwasmStore) (i2 : AwwasmImports),
      s.modules.length < U32_MOD →
      s.store_init m imp = .ok (a, s2, i2) →
      a.val = s.modules.length ∧
      s2.modules.length = s.modules.length + 1 ∧
      ∀ c ∈ m.code.getD [], AwwasmFuncInst.wasm 0 a c.func_body ∈ s2.funcs) := by
  refine ⟨?_, ?_, ?_, ?_, ?_, ?_, ?_, ?_⟩
  · exact fun s x => ⟨fun h => by
      simp [AwwasmStore.alloc_func, u32cast, Nat.mod_eq_of_lt h],
      by simp [AwwasmStore.alloc_func]⟩
  · exact fun s x => ⟨fun h => by
      simp [AwwasmStore.alloc_table, u32cast, Nat.mod_eq_of_lt h],
      by simp [AwwasmStore.alloc_table]⟩
  · exact fun s x => ⟨fun h => by
      simp [AwwasmStore.alloc_mem, u32cast, Nat.mod_eq_of_lt h],
      by simp [AwwasmStore.alloc_mem]⟩
  · exact fun s x => ⟨fun h => by
      simp [AwwasmStore.alloc_global, u32cast, Nat.mod_eq_of_lt h],
      by simp [AwwasmStore.alloc_global]⟩
  · exact fun s x => ⟨fun h => by
      simp [AwwasmStore.alloc_elem, u32cast, Nat.mod_eq_of_lt h],
      by simp [AwwasmStore.alloc_elem]⟩
  · exact fun s x => ⟨fun h => by
      simp [AwwasmStore.alloc_data, u32cast, Nat.mod_eq_of_lt h],
      by simp [AwwasmStore.alloc_data]⟩
  · exact fun s x => ⟨fun h => by
      simp [AwwasmStore.register_module, u32cast, Nat.mod_eq_of_lt h],
      by simp [AwwasmStore.register_module]⟩
  · intro s m imp a s2 i2 hcount h
    simp only [AwwasmStore.store_init] at h
    split at h
    · simp at h
    · rename_i x0 s1 mi1 imp1 heq1
      obtain ⟨hm1, -⟩ := resolveImports_ok_shape _ _ _ _ _ _ _ heq1
      split at h
      · simp at h
      · split at h
        · simp at h
        · rename_i x1 mi5 heq2
          split at h
          · simp at h
          · rename_i x2 s5 heq3
            simp only [AwwasmStore.register_module, Except.ok.injEq, Prod.mk.injEq] at h
            obtain ⟨ha, hs2, hi2⟩ := h
            obtain ⟨hf5, -, -, -, -, hm5⟩ := initActiveData_ok_shape _ _ _ _ heq3
            rw [allocDatas_store, allocMems_store, allocFuncs_store] at hf5 hm5
            dsimp only at hf5 hm5
            have hmods5 : s5.modules = s.modules := by rw [hm5, hm1]
            have haval : a.val = s.modules.length := by
              rw [← ha]
              simp [u32cast, hmods5, Nat.mod_eq_of_lt hcount]
            refine ⟨haval, ?_, ?_⟩
            · rw [← hs2]
              simp [hmods5]
            · intro c hc
              have hpend : (⟨u32cast s1.modules.length⟩ : AwwasmModuleAddr) = a := by
                rcases a with ⟨av⟩
                simp only [AwwasmModuleAddr.mk.injEq]
                have hav : av = s.modules.length := haval
                rw [hav, hm1, u32cast, Nat.mod_eq_of_lt hcount]
              rw [← hs2]
              show AwwasmFuncInst.wasm 0 a c.func_body ∈ s5.funcs
              rw [hf5, ← hpend]
              exact List.mem_append_right _
                (List.mem_map_of_mem
                  (fun c => AwwasmFuncInst.wasm 0 ⟨u32cast s1.modules.length⟩ c.func_body) hc)

def mC8 : AwwasmModule := ⟨none, none, some [⟨[11]⟩], none, none, none, none⟩

def storeC8 : AwwasmStore :=
  { funcs := [AwwasmFuncInst.Wasm ⟨0, ⟨0⟩, .Unparsed [11]⟩],
    tables := [], mems := [], globals := [], elems := [], datas := [],
    modules := [⟨[⟨0⟩], [], [], [], [], [], [], none⟩] }

/-- Witness for C8: a concrete instantiation with one code entry. -/
theorem C8_alloc_address_equals_count_witness :
    AwwasmStore.new.modules.length < U32_MOD ∧
    ((⟨0⟩ : AwwasmModuleAddr).val = AwwasmStore.new.modules.length ∧
     storeC8.modules.length = AwwasmStore.new.modules.length + 1 ∧
     ∀ c ∈ (mC8.code.getD []),
       AwwasmFuncInst.wasm 0 ⟨0⟩ c.func_body ∈ storeC8.funcs) :=
  ⟨by norm_num [AwwasmStore.new, U32_MOD],
   C8_alloc_address_equals_count.2.2.2.2.2.2.2 AwwasmStore.new mC8 AwwasmImports.new
     ⟨0⟩ storeC8 AwwasmImports.new (by norm_num [AwwasmStore.new, U32_MOD]) (by rfl)⟩

/-- Discriminator for the `FuncCodeMismatch` error variant. -/
def AwwasmInstantiationError.isFuncCodeMismatch : AwwasmInstantiationError → Bool
  | .FuncCodeMismatch _ _ => true
  | _ => false

/-- Import resolution never produces a `FuncCodeMismatch` error. -/
theorem resolveImports_error_fcm (items : List AwwasmImportItem) :
    ∀ (s : AwwasmStore) (mi : AwwasmModuleInst) (imp : AwwasmImports)
      (e : AwwasmInstantiationError),
      resolveImports s mi imp items = .error e → e.isFuncCodeMismatch = false := by
  induction items with
  | nil =>
    intro s mi imp e h
    simp [resolveImports] at h
  | cons item rest ih =>
    intro s mi imp e h
    rcases hk : item.kind with _ | _ | _ | _ <;>
      simp only [resolveImports, hk] at h
    case Function =>
      split at h
      · simp only [Except.error.injEq] at h
        subst h
        rfl
      · split at h
        · exact ih _ _ _ _ h
        · simp only [Except.error.injEq] at h
          subst h
          rfl
    case Memory =>
      split at h
      · simp only [Except.error.injEq] at h
        subst h
        rfl
      · split at h
        · exact ih _ _ _ _ h
        · simp only [Except.error.injEq] at h
          subst h
          rfl
    case Global =>
      split at h
      · simp only [Except.error.injEq] at h
        subst h
        rfl
      · split at h
        · exact ih _ _ _ _ h
        · simp only [Except.error.injEq] at h
          subst h
          rfl
    case Table =>
      simp only [Except.error.injEq] at h
      subst h
      rfl

/-- Export resolution never produces a `FuncCodeMismatch` error. -/
theorem resolveExports_error_fcm (items : List AwwasmExportItem) :
    ∀ (mi : AwwasmModuleInst) (e : AwwasmInstantiationError),
      resolveExports mi items = .error e → e.isFuncCodeMismatch = false := by
  induction items with
  | nil =>
    intro mi e h
    simp [resolveExports] at h
  | cons item rest ih =>
    intro mi e h
    rcases hk : item.kind with _ | _ | _ | _ <;>
      simp only [resolveExports, hk] at h <;>
      (split at h
       · simp only [Except.error.injEq] at h
         subst h
         rfl
       · exact ih _ _ h)

/-- The constant-expression evaluator only fails with
`InvalidConstExpr`, never with `FuncCodeMismatch`. -/
theorem eval_const_expr_error_fcm (c : List Nat) (e : AwwasmInstantiationError)
    (h : eval_const_expr c = .error e) : e.isFuncCodeMismatch = false := by
  unfold eval_const_expr at h
  split at h
  · simp only [Except.error.injEq] at h
    subst h
    rfl
  · simp at h

/-- Active-data initialization never produces a `FuncCodeMismatch`
error. -/
theorem initActiveData_error_fcm (mi : AwwasmModuleInst)
    (items : List (Nat × AwwasmDataItem)) :
    ∀ (s : AwwasmStore) (e : AwwasmInstantiationError),
      initActiveData mi s items = .error e → e.isFuncCodeMismatch = false := by
  induction items with
  | nil =>
    intro s e h
    simp [initActiveData] at h
  | cons item rest ih =>
    intro s e h
    obtain ⟨seg_idx, ditem⟩ := item
    simp only [initActiveData] at h
    split at h
    · exact ih _ _ h
    · split at h
      · simp only [Except.error.injEq] at h
        subst h
        rfl
      · split at h
        · rename_i err heval
          simp only [Except.error.injEq] at h
          subst h
          exact eval_const_expr_error_fcm _ _ heval
        · split at h
          · simp only [Except.error.injEq] at h
            subst h
            rfl
          · split at h
            · simp only [Except.error.injEq] at h
              subst h
              rfl
            · split at h
              · simp only [Except.error.injEq] at h
                subst h
                rfl
              · exact ih _ _ h

/-- Claim C3 (amended): `store_init` fails with `FuncCodeMismatch`
(carrying the two section lengths as `u32`) exactly when import resolution
gets past and the function section is nonempty with a length different from
the code section's — including the case of an empty code section; when the
function section is empty or the lengths agree, no `FuncCodeMismatch` can
arise, and on success exactly one Wasm function instance is allocated per
code entry (on top of one per function import). -/
theorem C3_func_code_mismatch (s : AwwasmStore) (m : AwwasmModule) (imp : AwwasmImports) :
    (∀ e, s.store_init m imp = .error e → e.isFuncCodeMismatch = true →
      e = .FuncCodeMismatch (u32cast (m.funcs.getD []).length)
            (u32cast (m.code.getD []).length) ∧
      (m.funcs.getD []) ≠ [] ∧
      (m.funcs.getD []).length ≠ (m.code.getD []).length) ∧
    ((m.funcs.getD []) = [] ∨ (m.funcs.getD []).length = (m.code.getD []).length →
      ∀ fc cc, s.store_init m imp ≠ .error (.FuncCodeMismatch fc cc)) ∧
    (∀ r, resolveImports s AwwasmModuleInst.new imp (m.imports.getD []) = .ok r →
      (m.funcs.getD []) ≠ [] →
      (m.funcs.getD []).length ≠ (m.code.getD []).length →
      s.store_init m imp = .error (.FuncCodeMismatch (u32cast (m.funcs.getD []).length)
        (u32cast (m.code.getD []).length))) ∧
    (∀ a s2 i2, s.store_init m imp = .ok (a, s2, i2) →
      s2.funcs.length = s.funcs.length +
        (m.imports.getD []).countP (fun it => it.kind == AwwasmImportKind.Function) +
        (m.code.getD []).length) := by
  have part1 : ∀ e, s.store_init m imp = .error e → e.isFuncCodeMismatch = true →
      e = .FuncCodeMismatch (u32cast (m.funcs.getD []).length)
            (u32cast (m.code.getD []).length) ∧
      (m.funcs.getD []) ≠ [] ∧
      (m.funcs.getD []).length ≠ (m.code.getD []).length := by
    intro e h hfcm
    simp only [AwwasmStore.store_init] at h
    split at h
    · rename_i e0 heq0
      simp only [Except.error.injEq] at h
      subst h
      rw [resolveImports_error_fcm _ _ _ _ _ heq0] at hfcm
      cases hfcm
    · rename_i x0 s1 mi1 imp1 heq1
      split at h
      · rename_i hcond
        simp only [Except.error.injEq] at h
        subst h
        rw [Bool.and_eq_true, Bool.not_eq_true', bne_iff_ne] at hcond
        obtain ⟨hc1, hc2⟩ := hcond
        refine ⟨rfl, ?_, hc2⟩
        simpa [List.isEmpty_iff] using hc1
      · split at h
        · rename_i e2 heq2
          simp only [Except.error.injEq] at h
          subst h
          rw [resolveExports_error_fcm _ _ _ heq2] at hfcm
          cases hfcm
        · split at h
          · rename_i e3 heq3
            simp only [Except.error.injEq] at h
            subst h
            rw [initActiveData_error_fcm _ _ _ _ heq3] at hfcm
            cases hfcm
          · simp at h
  refine ⟨part1, ?_, ?_, ?_⟩
  · intro hcase fc cc hcontra
    obtain ⟨-, hne, hlen⟩ := part1 _ hcontra rfl
    rcases hcase with hcase | hcase
    · exact hne hcase
    · exact hlen hcase
  · intro r himp hne hlen
    rcases r with ⟨s1, mi1, imp1⟩
    have hcond : (!(m.funcs.getD []).isEmpty &&
        (m.funcs.getD []).length != (m.code.getD []).length) = true := by
      rw [Bool.and_eq_true, Bool.not_eq_true', bne_iff_ne]
      exact ⟨by simp [List.isEmpty_iff, hne], hlen⟩
    simp only [AwwasmStore.store_init, himp, hcond, if_true]
  · intro a s2 i2 h
    simp only [AwwasmStore.store_init] at h
    split at h
    · simp at h
    · rename_i x0 s1 mi1 imp1 heq1
      obtain ⟨-, hflen1⟩ := resolveImports_ok_shape _ _ _ _ _ _ _ heq1
      split at h
      · simp at h
      · split at h
        · simp at h
        · rename_i x1 mi5 heq2
          split at h
          · simp at h
          · rename_i x2 s5 heq3
            simp only [AwwasmStore.register_module, Except.ok.injEq, Prod.mk.injEq] at h
            obtain ⟨-, hs2, -⟩ := h
            obtain ⟨hf5, -, -, -, -, -⟩ := initActiveData_ok_shape _ _ _ _ heq3
            rw [allocDatas_store, allocMems_store, allocFuncs_store] at hf5
            dsimp only at hf5
            rw [← hs2]
            show s5.funcs.length = _
            rw [hf5]
            simp only [List.length_append, List.length_map]
            omega

/-- A parsed module with one function-section entry and no code
section. -/
def fModuleC3 : AwwasmModule := ⟨none, some [⟨0⟩], none, none, none, none, none⟩

/-- Counterexample to claim C3 as stated: a module whose function
section has one entry and whose code section is empty (exactly one of the
two empty) does fail with `FuncCodeMismatch{1, 0}`. -/
theorem C3_counterexample :
    (fModuleC3.funcs.getD []) ≠ [] ∧ (fModuleC3.code.getD []) = [] ∧
    AwwasmStore.new.store_init fModuleC3 AwwasmImports.new =
      .error (.FuncCodeMismatch 1 0) :=
  ⟨by decide, rfl, by rfl⟩

/-- Witness for the amended C3 at the one-function/no-code module. -/
theorem C3_func_code_mismatch_witness :
    (resolveImports AwwasmStore.new AwwasmModuleInst.new AwwasmImports.new
       (fModuleC3.imports.getD []) =
       .ok (AwwasmStore.new, AwwasmModuleInst.new, AwwasmImports.new)) ∧
    (fModuleC3.funcs.getD []) ≠ [] ∧
    (fModuleC3.funcs.getD []).length ≠ (fModuleC3.code.getD []).length ∧
    AwwasmStore.new.store_init fModuleC3 AwwasmImports.new =
      .error (.FuncCodeMismatch (u32cast (fModuleC3.funcs.getD []).length)
        (u32cast (fModuleC3.code.getD []).length)) :=
  ⟨rfl, by decide, by decide,
   (C3_func_code_mismatch AwwasmStore.new fModuleC3 AwwasmImports.new).2.2.1
     (AwwasmStore.new, AwwasmModuleInst.new, AwwasmImports.new) rfl (by decide) (by decide)⟩

end AwWasm
